import Mathlib

/-!
Verification development for the styrene command-line front end
(src/styrene/cmdline.py).  The Python source is shallowly embedded:

* the `ColorFormatter` token highlighting (lines 38-100) becomes a pure
  string transformation built from the four placeholder patterns of the
  source, applied in the same fixed order with the scan-left,
  non-overlapping semantics of `re.sub`;
* `process_spec_file` (lines 105-138) becomes a function over an explicit
  filesystem state, an abstract engine behaviour record, a log trace and an
  engine-call trace; Python `try`/`finally` semantics (an exception raised
  in the `finally` block replaces the in-flight exception, and aborts the
  rest of the block) are modelled explicitly;
* the per-input loop of `main` (lines 247-264) becomes `mainLoop`, with
  the documented behaviour of `configparser.ConfigParser.read` (files that
  cannot be opened are silently ignored; malformed content raises);
* the colour decision and log level choice of `main` (lines 220-244)
  become `colourEnabled` and `chooseLogLevel`.

The external collaborators `styrene.bundle.NativeBundle` and
`styrene.utils.fix_tree_perms` are not part of the sources here; where
their behaviour matters it is modelled from the specification and marked
as such.
-/

/- ============================================================ -/
/- Log formatter (ColorFormatter, cmdline.py lines 38-100)      -/
/- ============================================================ -/

/-- ANSI bold-on code, `ColorFormatter.BOLD = "\033[01m"`. -/
def BOLD : String := "\x1b[01m"

/-- ANSI bold-off code, `ColorFormatter.BOLDOFF = "\033[22m"`. -/
def BOLDOFF : String := "\x1b[22m"

/-- ANSI full reset code, `ColorFormatter.RESET = "\033[0m"`. -/
def RESET : String := "\x1b[0m"

/-- Severity-to-colour table `ColorFormatter.LEVELCOL`: the codes are the
rendered values of the `"\033[%02dm"` templates of the source
(FG+CYAN = 36, FG+GREEN = 32, FG+MAGENTA = 35, FG+RED = 31,
and FG+RED with BG+BLACK = 31;40).  Unknown level names get `""`. -/
def levelColour (levelname : String) : String :=
  if levelname = "DEBUG" then "\x1b[36m"
  else if levelname = "INFO" then "\x1b[32m"
  else if levelname = "WARNING" then "\x1b[35m"
  else if levelname = "ERROR" then "\x1b[31m"
  else if levelname = "CRITICAL" then "\x1b[31;40m"
  else ""

/-- The four placeholder kinds of `ColorFormatter.format`, in source order:
`%r`, `%s`, `%\+?[0-9.]*d`, `%\+?[0-9.]*f`. -/
inductive TokenPat where
  | pr
  | ps
  | pd
  | pf
  deriving DecidableEq

/-- Character class `[0-9.]` of the integer/float placeholder patterns. -/
def numBody (c : Char) : Bool := c.isDigit || c == '.'

/-- Length of the match of `%\+?[0-9.]*X` (with `X` the literal `endc`)
at the head of `cs`, if any.  Faithful to the regex: the optional `+` and
the `[0-9.]*` run are greedy, and since neither `d` nor `f` belongs to
`[0-9.]` and `+` does not either, greedy matching needs no backtracking. -/
def matchNumLen (endc : Char) (cs : List Char) : Option Nat :=
  match cs with
  | '%' :: '+' :: rest1 =>
      let k := (rest1.takeWhile numBody).length
      match rest1.drop k with
      | c :: _ => if c == endc then some (k + 3) else none
      | [] => none
  | '%' :: rest =>
      let k := (rest.takeWhile numBody).length
      match rest.drop k with
      | c :: _ => if c == endc then some (k + 2) else none
      | [] => none
  | _ => none

/-- Length of the match of the given placeholder pattern at the head of
`cs`, if any. -/
def matchLen : TokenPat → List Char → Option Nat
  | .pr, '%' :: 'r' :: _ => some 2
  | .pr, _ => none
  | .ps, '%' :: 's' :: _ => some 2
  | .ps, _ => none
  | .pd, cs => matchNumLen 'd' cs
  | .pf, cs => matchNumLen 'f' cs

/-- Scan-left, non-overlapping substitution of `re.sub` with the
`replace_bold` replacement: each match is wrapped in `BOLD`/`BOLDOFF` and
scanning resumes after the match.  The fuel argument is the length of the
scanned list; every step consumes at least one character, so the fuel
never runs out on the initial call of `boldSub`. -/
def substAux (p : TokenPat) : Nat → List Char → List Char
  | 0, cs => cs
  | _ + 1, [] => []
  | fuel + 1, c :: rest =>
      match matchLen p (c :: rest) with
      | some n =>
          BOLD.data ++ (c :: rest).take n ++ BOLDOFF.data
            ++ substAux p fuel ((c :: rest).drop n)
      | none => c :: substAux p fuel rest

/-- One `token_re.sub(repl, msg)` step of `ColorFormatter.format`. -/
def boldSub (p : TokenPat) (s : String) : String :=
  ⟨substAux p s.data.length s.data⟩

/-- The token-highlighting loop of `ColorFormatter.format`: the four
patterns of `token_formatting` are applied to the whole message one after
the other, in source order. -/
def colorizeMsg (msg : String) : String :=
  [TokenPat.pr, TokenPat.ps, TokenPat.pd, TokenPat.pf].foldl
    (fun m p => boldSub p m) msg

/-- Modelled from the source semantics of `record.getMessage()`: Python
percent-interpolation restricted to a message whose only conversion is a
single `%d` placeholder filled with an integer, which is all the claimed
instance needs.  The first `%d` is replaced by the rendered number. -/
def interpFirstD (n : Nat) : List Char → List Char
  | '%' :: 'd' :: rest => (toString n).data ++ rest
  | c :: rest => c :: interpFirstD n rest
  | [] => []

/-- Full colour rendering of one record through the colourized
`log_format` of `main` (lines 225-229):
severity colour prefix, level name, bold logger name, the token-highlighted
interpolated message, trailing reset.  Token highlighting happens on the
message template, before argument interpolation, exactly as in
`ColorFormatter.format` followed by `record.getMessage()`. -/
def formatRecordColour (levelname name msg : String) (arg : Nat) : String :=
  levelColour levelname ++ levelname ++ ": " ++ BOLD ++ name ++ BOLDOFF
    ++ ": " ++ String.mk (interpFirstD arg (colorizeMsg msg).data) ++ RESET

/- ============================================================ -/
/- Colour decision and log level (main, cmdline.py 220-244)     -/
/- ============================================================ -/

/-- Modelled from the source use of `str.casefold`: on the strings the
dictionary lookup compares against (`"yes"`, `"no"` and the ASCII values
of interest) casefolding coincides with ASCII lowercasing. -/
def foldAscii (s : String) : String :=
  ⟨s.data.map fun c =>
    if 65 ≤ c.toNat && c.toNat ≤ 90 then Char.ofNat (c.toNat + 32) else c⟩

/-- Colour enablement of `main` (lines 220-223): the dictionary
`{"yes".casefold(): True, "no".casefold(): False}` looked up at
`options.colour.casefold()` with default `sys.stderr.isatty()`. -/
def colourEnabled (colour : String) (tty : Bool) : Bool :=
  if foldAscii colour = "yes" then true
  else if foldAscii colour = "no" then false
  else tty

/-- Numeric value of `logging.WARNING`. -/
def logWARNING : Nat := 30

/-- Numeric value of `logging.INFO`. -/
def logINFO : Nat := 20

/-- Numeric value of `logging.DEBUG`. -/
def logDEBUG : Nat := 10

/-- Log level choice of `main` (lines 238-243): `quiet` is tested first,
then `debug`, else the default. -/
def chooseLogLevel (quiet dbg : Bool) : Nat :=
  if quiet then logWARNING
  else if dbg then logDEBUG
  else logINFO

/- ============================================================ -/
/- Filesystem and engine model for process_spec_file            -/
/- ============================================================ -/

/-- Explicit filesystem state: the set of directories (as a list of paths)
and the files as an association list from path to byte content.  A write
prepends its entry; lookups return the first entry with the given path, so
a later write to the same path shadows the earlier one, matching an
overwriting copy. -/
structure FS where
  dirs : List String
  files : List (String × String)
  deriving DecidableEq

/-- First-match lookup in a file association list. -/
def lookupFiles : List (String × String) → String → Option String
  | [], _ => none
  | e :: rest, p => if e.1 = p then some e.2 else lookupFiles rest p

/-- Content of the file at `p`, if present. -/
def FS.lookup (fs : FS) (p : String) : Option String :=
  lookupFiles fs.files p

/-- Create a directory (no effect if it already exists). -/
def FS.mkdir (fs : FS) (d : String) : FS :=
  if d ∈ fs.dirs then fs else ⟨d :: fs.dirs, fs.files⟩

/-- Write (or overwrite) the file at `p` with content `c`. -/
def FS.write (fs : FS) (p c : String) : FS :=
  ⟨fs.dirs, (p, c) :: fs.files⟩

/-- Path `p` lies strictly under directory `d`: `d ++ "/"` is a prefix
of `p`. -/
def underDir (d p : String) : Bool :=
  List.isPrefixOf (d.data ++ ['/']) p.data

/-- `shutil.rmtree d`: remove the directory `d`, every directory under it
and every file under it. -/
def FS.rmtree (fs : FS) (d : String) : FS :=
  ⟨fs.dirs.filter fun x => !(x == d || underDir d x),
   fs.files.filter fun e => !underDir d e.1⟩

/-- Characters after the last slash. -/
def pathBaseAux (acc : List Char) : List Char → List Char
  | [] => acc
  | '/' :: rest => pathBaseAux [] rest
  | c :: rest => pathBaseAux (acc ++ [c]) rest

/-- Last path component, as in `os.path.basename`: everything after the
last `/` (empty for a path ending in `/`). -/
def pathBase (p : String) : String :=
  ⟨pathBaseAux [] p.data⟩

/-- Errors a run can raise; the constructor records which call raised, so
that exception replacement by the cleanup code is observable. -/
inductive Err where
  | checkErr
  | engineErr
  | copyErr
  | permErr
  | rmtreeErr
  deriving DecidableEq

deriving instance DecidableEq for Except

/-- Log severities used by cmdline.py. -/
inductive LogLevel where
  | debug
  | info
  | warning
  | error
  deriving DecidableEq

/-- The log messages cmdline.py itself emits, by call site. -/
inductive LogMsg where
  | warnNoOutput1
  | warnNoOutput2
  | infoCleaning (dir : String)
  | errFailedLoad (file : String)
  | errUnexpected (file : String)
  deriving DecidableEq

/-- One emitted log record: severity and message. -/
def LogEntry : Type := LogLevel × LogMsg

instance : DecidableEq LogEntry := by
  unfold LogEntry
  infer_instance

/-- Calls made to the Bundling Engine, in order. -/
inductive EngineCall where
  | checkDeps
  | writeDist (dir : String)
  deriving DecidableEq

/-- External behaviour of one run: what the Bundling Engine and the
operating system do on this particular invocation.  `engineArtifacts` is
either a build failure or the ordered artifact list as
(name relative to the build directory, byte content) pairs;
`copyFails dst` says whether `shutil.copy` to destination `dst` raises;
`tmpPath` is the fresh directory name `tempfile.mkdtemp` picks;
`fixPermsFails` and `rmtreeFails` say whether the two cleanup calls
raise. -/
structure Env where
  checkFails : Bool
  engineArtifacts : Except Unit (List (String × String))
  copyFails : String → Bool
  tmpPath : String
  fixPermsFails : Bool
  rmtreeFails : Bool

/-- The Run Options record built by the option parser of `main`. -/
structure Options where
  output_dir : Option String
  build_zip : Bool
  build_exe : Bool
  quiet : Bool
  debug : Bool
  colour : String
  pkgdirs : List String

/-- Write the artifact files under `dir`, in order. -/
def writeAll (dir : String) : List (String × String) → FS → FS
  | [], fs => fs
  | a :: rest, fs => writeAll dir rest (fs.write (dir ++ "/" ++ a.1) a.2)

/-- Modelled from the spec: `bundle.write_distributables(output_dir,
options)` of the external Bundling Engine (styrene.bundle.NativeBundle,
whose source is not present here) creates the output directory if it is
absent, performs the build, and either raises or returns the ordered
paths of the produced artifacts under that directory. -/
def writeDistributables (env : Env) (dir : String) (fs : FS) :
    Except Err (List String) × FS :=
  match env.engineArtifacts with
  | .error _ => (.error .engineErr, fs.mkdir dir)
  | .ok arts =>
      (.ok (arts.map fun a => dir ++ "/" ++ a.1),
       writeAll dir arts (fs.mkdir dir))

/-- One `shutil.copy(src, dst)` call: reads the source file and writes its
content to the destination; raises if the source is missing or if the
environment makes this copy fail. -/
def shutilCopy (env : Env) (src dst : String) (fs : FS) :
    Except Err Unit × FS :=
  match fs.lookup src with
  | none => (.error .copyErr, fs)
  | some c =>
      if env.copyFails dst then (.error .copyErr, fs)
      else (.ok (), fs.write dst c)

/-- The artifact copy loop of `process_spec_file` (lines 127-132): each
written distributable is copied, keeping only its base name, into the
effective output directory (the current working directory).  The loop
stops at the first failing copy. -/
def copyLoop (env : Env) (cwd : String) :
    List String → FS → Except Err Unit × FS
  | [], fs => (.ok (), fs)
  | d :: rest, fs =>
      match shutilCopy env d (cwd ++ "/" ++ pathBase d) fs with
      | (.error e, fs1) => (.error e, fs1)
      | (.ok _, fs1) => copyLoop env cwd rest fs1

/-- Outcome of the `try` body: result and filesystem. -/
structure StepOut where
  res : Except Err Unit
  fs : FS
  deriving DecidableEq

/-- The `try` body of the ephemeral branch (lines 126-132): build into the
temp directory, then copy each artifact out. -/
def tryBody (env : Env) (cwd tmp : String) (fs : FS) : StepOut :=
  match writeDistributables env tmp fs with
  | (.error e, fs1) => ⟨.error e, fs1⟩
  | (.ok written, fs1) =>
      match copyLoop env cwd written fs1 with
      | (r, fs2) => ⟨r, fs2⟩

/-- Outcome of one `process_spec_file` run: the propagated result, the
final filesystem, the log entries emitted, and the engine calls made. -/
structure PResult where
  res : Except Err Unit
  fs : FS
  log : List LogEntry
  calls : List EngineCall

/-- The ephemeral branch of `process_spec_file` (lines 123-136):
`tempfile.mkdtemp`, the `try` body, and the `finally` block.  Python
semantics of `finally` are modelled explicitly: the cleanup info message
is always logged, `fix_tree_perms` runs next (modelled from the spec,
styrene.utils not being present here: it only normalizes permissions,
creating and removing nothing, and may raise), then `shutil.rmtree`.  An
exception raised inside the `finally` block aborts the rest of the block
and replaces the in-flight exception of the `try` body; a failing
`rmtree` is modelled as leaving the tree in place. -/
def ephemeralBuild (env : Env) (cwd : String) (fs : FS) : PResult :=
  let b := tryBody env cwd env.tmpPath (fs.mkdir env.tmpPath)
  if env.fixPermsFails then
    ⟨.error .permErr, b.fs, [(.info, .infoCleaning env.tmpPath)],
     [.checkDeps, .writeDist env.tmpPath]⟩
  else if env.rmtreeFails then
    ⟨.error .rmtreeErr, b.fs, [(.info, .infoCleaning env.tmpPath)],
     [.checkDeps, .writeDist env.tmpPath]⟩
  else
    ⟨b.res, b.fs.rmtree env.tmpPath, [(.info, .infoCleaning env.tmpPath)],
     [.checkDeps, .writeDist env.tmpPath]⟩

/-- Shallow embedding of `process_spec_file(spec, options)` (lines
105-138).  The behaviour of the constructed `NativeBundle` is captured by
`env`: `check_runtime_dependencies` (modelled from the spec: it validates
feasibility and raises on unmet requirements, touching no files) may
raise; otherwise the output mode is decided exactly as in the source:
an explicit output directory means a single direct
`write_distributables` call; no output directory and both builds disabled
means two warnings and an early return; otherwise the ephemeral branch
runs with the current working directory as the effective output
location. -/
def process_spec_file (env : Env) (cwd : String) (opts : Options) (fs : FS) :
    PResult :=
  if env.checkFails then ⟨.error .checkErr, fs, [], [.checkDeps]⟩
  else
    match opts.output_dir with
    | none =>
        if !(opts.build_zip || opts.build_exe) then
          ⟨.ok (), fs, [(.warning, .warnNoOutput1), (.warning, .warnNoOutput2)],
           [.checkDeps]⟩
        else ephemeralBuild env cwd fs
    | some d =>
        match writeDistributables env d fs with
        | (.error e, fs1) => ⟨.error e, fs1, [], [.checkDeps, .writeDist d]⟩
        | (.ok _, fs1) => ⟨.ok (), fs1, [], [.checkDeps, .writeDist d]⟩

/- ============================================================ -/
/- Run driver (main, cmdline.py lines 247-264)                  -/
/- ============================================================ -/

/-- The state an input file can be in, as far as
`configparser.ConfigParser.read` is concerned. -/
inductive FileState where
  | unreadable
  | malformed
  | good (content : String)
  deriving DecidableEq

/-- Modelled from the documented semantics of
`configparser.ConfigParser.read` as called at lines 249-250: a file that
cannot be opened is silently ignored, leaving the parser empty; malformed
content raises a parsing exception; readable well-formed content yields
the parsed specification.  The parsed specification is represented by its
content string. -/
def configRead : FileState → Except Unit String
  | .unreadable => .ok ""
  | .malformed => .error ()
  | .good c => .ok c

/-- Outcome of the per-input loop of `main`: the log entries the driver
itself emits, the inputs handed to `process_spec_file` (in order), and
the process exit status (0 when the loop runs to completion). -/
structure MainOut where
  log : List LogEntry
  processed : List String
  exit : Nat
  deriving DecidableEq

/-- The per-input loop of `main` (lines 247-264), with the outcome of
`process_spec_file` on a parsed specification abstracted as `proc`.
A parse exception is logged once and ends the process with status 2; an
exception from `process_spec_file` is logged once and ends the process
with status 2; otherwise the loop continues, and falling off the end of
`main` exits with status 0. -/
def mainLoop (proc : String → Except Err Unit) :
    List (String × FileState) → MainOut
  | [] => ⟨[], [], 0⟩
  | (name, st) :: rest =>
      match configRead st with
      | .error _ => ⟨[(.error, .errFailedLoad name)], [], 2⟩
      | .ok content =>
          match proc content with
          | .error _ => ⟨[(.error, .errUnexpected name)], [name], 2⟩
          | .ok _ =>
              let m := mainLoop proc rest
              ⟨m.log, name :: m.processed, m.exit⟩

/-- One parse-and-process step succeeds: the file parses (or is silently
skipped) and the orchestrator returns normally on the result. -/
def stepOk (proc : String → Except Err Unit) (f : String × FileState) : Bool :=
  match configRead f.2 with
  | .error _ => false
  | .ok c =>
      match proc c with
      | .error _ => false
      | .ok _ => true

/-- Final name of one artifact in ephemeral-build mode: the base name of
the artifact path returned by the engine, joined to the invoking process
current working directory. -/
def artifactDest (env : Env) (cwd : String) (a : String × String) : String :=
  cwd ++ "/" ++ pathBase (env.tmpPath ++ "/" ++ a.1)

/- Concrete fixtures used to instantiate the theorems. -/

/-- A starting filesystem with just the working directory. -/
def fsStart : FS := ⟨["/work"], []⟩

/-- Default run options: ephemeral mode, both outputs enabled. -/
def optsDefault : Options := ⟨none, true, true, false, false, "auto", []⟩

/-- Run options with both outputs disabled and no output directory. -/
def optsNoBuild : Options := ⟨none, false, false, false, false, "auto", []⟩

/-- Run options with an explicit output directory. -/
def optsOut : Options := ⟨some "/out", true, true, false, false, "auto", []⟩

/-- A benign run: the engine produces two artifacts, nothing fails. -/
def envOk : Env :=
  ⟨false, .ok [("b.zip", "Z"), ("b.exe", "X")], fun _ => false,
   "/tmp/styrene0", false, false⟩

/-- A run where the first artifact copy fails and the permission fix
during cleanup fails as well. -/
def envPerm : Env :=
  { envOk with copyFails := fun d => d == "/work/b.zip", fixPermsFails := true }

/-- A run where the first artifact copy fails, the permission fix during
cleanup succeeds, and the recursive deletion fails. -/
def envRmFail : Env :=
  { envOk with copyFails := fun d => d == "/work/b.zip", rmtreeFails := true }

/-- A run where the copy of the second artifact fails. -/
def envFailSnd : Env :=
  { envOk with copyFails := fun d => d == "/work/b.exe" }

/-- A run where the engine produces no artifacts. -/
def envNone : Env := { envOk with engineArtifacts := .ok [] }

/- ============================================================ -/
/- Supporting lemmas                                            -/
/- ============================================================ -/

theorem lookupFiles_filter_keep (p : String) (keep : String × String → Bool)
    (h : ∀ e : String × String, e.1 = p → keep e = true) :
    ∀ l : List (String × String), lookupFiles (l.filter keep) p = lookupFiles l p := by
  intro l
  induction l with
  | nil => rfl
  | cons e rest ih =>
      by_cases he : e.1 = p
      · rw [List.filter_cons, if_pos (h e he)]
        simp [lookupFiles, he, ih]
      · rw [List.filter_cons]
        by_cases hk : keep e = true
        · simp only [if_pos hk, lookupFiles, if_neg he, ih]
        · simp only [Bool.not_eq_true] at hk
          simp only [hk, Bool.false_eq_true, if_false, lookupFiles, if_neg he, ih]

theorem lookupFiles_filter_drop (p : String) (keep : String × String → Bool)
    (h : ∀ e : String × String, e.1 = p → keep e = false) :
    ∀ l : List (String × String), lookupFiles (l.filter keep) p = none := by
  intro l
  induction l with
  | nil => rfl
  | cons e rest ih =>
      rw [List.filter_cons]
      by_cases hk : keep e = true
      · have he : e.1 ≠ p := by
          intro hc
          rw [h e hc] at hk
          exact Bool.false_ne_true hk
        simp only [if_pos hk, lookupFiles, if_neg he, ih]
      · simp only [Bool.not_eq_true] at hk
        simp only [hk, Bool.false_eq_true, if_false, ih]

theorem FS.lookup_write_self (fs : FS) (p c : String) :
    (fs.write p c).lookup p = some c := by
  simp [FS.write, FS.lookup, lookupFiles]

theorem FS.lookup_write_ne (fs : FS) (p c q : String) (h : p ≠ q) :
    (fs.write p c).lookup q = fs.lookup q := by
  simp [FS.write, FS.lookup, lookupFiles, h]

theorem FS.lookup_mkdir (fs : FS) (d p : String) :
    (fs.mkdir d).lookup p = fs.lookup p := by
  unfold FS.mkdir
  by_cases h : d ∈ fs.dirs <;> simp [h, FS.lookup]

theorem FS.dirs_write (fs : FS) (p c : String) :
    (fs.write p c).dirs = fs.dirs := rfl

theorem FS.mem_dirs_mkdir (fs : FS) (d : String) : d ∈ (fs.mkdir d).dirs := by
  unfold FS.mkdir
  by_cases h : d ∈ fs.dirs <;> simp [h]

theorem FS.mem_dirs_mkdir_of_mem (fs : FS) (d x : String) (h : x ∈ fs.dirs) :
    x ∈ (fs.mkdir d).dirs := by
  unfold FS.mkdir
  by_cases hd : d ∈ fs.dirs <;> simp [hd, h]

theorem FS.mkdir_idem (fs : FS) (d : String) :
    (fs.mkdir d).mkdir d = fs.mkdir d := by
  unfold FS.mkdir
  by_cases h : d ∈ fs.dirs
  · simp [h]
  · simp [h]

theorem FS.rmtree_not_mem_dirs (fs : FS) (d : String) :
    d ∉ (fs.rmtree d).dirs := by
  intro h
  simp only [FS.rmtree, List.mem_filter] at h
  simp at h

theorem FS.rmtree_not_under_dirs (fs : FS) (d x : String)
    (h : x ∈ (fs.rmtree d).dirs) : underDir d x = false := by
  simp only [FS.rmtree, List.mem_filter] at h
  have := h.2
  simp only [Bool.not_eq_eq_eq_not, Bool.not_true, Bool.or_eq_false_iff] at this
  exact this.2

theorem FS.lookup_rmtree_frame (fs : FS) (d p : String)
    (h : underDir d p = false) : (fs.rmtree d).lookup p = fs.lookup p := by
  unfold FS.rmtree FS.lookup
  exact lookupFiles_filter_keep p _ (fun e he => by simp [he, h]) fs.files

theorem FS.lookup_rmtree_under (fs : FS) (d p : String)
    (h : underDir d p = true) : (fs.rmtree d).lookup p = none := by
  unfold FS.rmtree FS.lookup
  exact lookupFiles_filter_drop p _ (fun e he => by simp [he, h]) fs.files

theorem underDir_append (d r : String) : underDir d (d ++ "/" ++ r) = true := by
  unfold underDir
  have : (d ++ "/" ++ r).data = (d.data ++ ['/']) ++ r.data := by
    rw [String.data_append, String.data_append]
  rw [this]
  simp [List.isPrefixOf_iff_prefix]

theorem writeAll_dirs (dir : String) :
    ∀ (l : List (String × String)) (fs : FS), (writeAll dir l fs).dirs = fs.dirs := by
  intro l
  induction l with
  | nil => intro fs; rfl
  | cons a rest ih => intro fs; rw [writeAll, ih]; rfl

theorem writeAll_lookup_frame (dir p : String) :
    ∀ (l : List (String × String)) (fs : FS),
      (∀ a ∈ l, p ≠ dir ++ "/" ++ a.1) →
      (writeAll dir l fs).lookup p = fs.lookup p := by
  intro l
  induction l with
  | nil => intro fs _; rfl
  | cons a rest ih =>
      intro fs h
      rw [writeAll, ih _ (fun b hb => h b (List.mem_cons_of_mem a hb))]
      exact FS.lookup_write_ne fs _ a.2 p
        (fun hc => h a (List.mem_cons_self a rest) hc.symm)

theorem writeAll_lookup_mem (dir : String) :
    ∀ (l : List (String × String)) (fs : FS),
      (l.map fun a => dir ++ "/" ++ a.1).Pairwise (· ≠ ·) →
      ∀ a ∈ l, (writeAll dir l fs).lookup (dir ++ "/" ++ a.1) = some a.2 := by
  intro l
  induction l with
  | nil => intro fs _ a ha; cases ha
  | cons b rest ih =>
      intro fs hp a ha
      rw [List.map_cons, List.pairwise_cons] at hp
      rcases List.mem_cons.mp ha with hab | harest
      · subst hab
        rw [writeAll]
        rw [writeAll_lookup_frame dir _ rest _
          (fun x hx => hp.1 _ (List.mem_map_of_mem _ hx))]
        exact FS.lookup_write_self fs _ a.2
      · exact ih _ hp.2 a harest

theorem copyLoop_dirs (env : Env) (cwd : String) :
    ∀ (l : List String) (fs : FS), ((copyLoop env cwd l fs).2).dirs = fs.dirs := by
  intro l
  induction l with
  | nil => intro fs; rfl
  | cons d rest ih =>
      intro fs
      rw [copyLoop]
      unfold shutilCopy
      cases h : fs.lookup d with
      | none => rfl
      | some c =>
          by_cases hf : env.copyFails (cwd ++ "/" ++ pathBase d) = true
          · simp only [hf, if_true]
          · simp only [Bool.not_eq_true] at hf
            simp only [hf, Bool.false_eq_true, if_false, ih]
            rfl

theorem copyLoop_lookup_frame (env : Env) (cwd p : String) :
    ∀ (l : List String) (fs : FS),
      (∀ d ∈ l, p ≠ cwd ++ "/" ++ pathBase d) →
      (copyLoop env cwd l fs).2.lookup p = fs.lookup p := by
  intro l
  induction l with
  | nil => intro fs _; rfl
  | cons d rest ih =>
      intro fs h
      rw [copyLoop]
      unfold shutilCopy
      cases hl : fs.lookup d with
      | none => rfl
      | some c =>
          by_cases hf : env.copyFails (cwd ++ "/" ++ pathBase d) = true
          · simp only [hf, if_true]
          · simp only [Bool.not_eq_true] at hf
            simp only [hf, Bool.false_eq_true, if_false]
            rw [ih _ (fun b hb => h b (List.mem_cons_of_mem d hb))]
            exact FS.lookup_write_ne fs _ c p
              (fun hc => h d (List.mem_cons_self d rest) hc.symm)

theorem copyLoop_ok (env : Env) (cwd : String) :
    ∀ (l : List String) (fs : FS),
      (∀ d ∈ l, env.copyFails (cwd ++ "/" ++ pathBase d) = false) →
      (∀ d ∈ l, (fs.lookup d).isSome) →
      (∀ d ∈ l, ∀ d' ∈ l, cwd ++ "/" ++ pathBase d ≠ d') →
      (l.map fun d => cwd ++ "/" ++ pathBase d).Pairwise (· ≠ ·) →
      (copyLoop env cwd l fs).1 = .ok () ∧
      (∀ d ∈ l, (copyLoop env cwd l fs).2.lookup (cwd ++ "/" ++ pathBase d) = fs.lookup d) ∧
      (∀ d ∈ l, (copyLoop env cwd l fs).2.lookup d = fs.lookup d) := by
  intro l
  induction l with
  | nil =>
      intro fs _ _ _ _
      exact ⟨rfl, fun d hd => (List.not_mem_nil d hd).elim,
             fun d hd => (List.not_mem_nil d hd).elim⟩
  | cons d rest ih =>
      intro fs h1 h2 h3 h4
      have hdmem : d ∈ d :: rest := List.mem_cons_self d rest
      obtain ⟨c, hc⟩ := Option.isSome_iff_exists.mp (h2 d hdmem)
      rw [List.map_cons, List.pairwise_cons] at h4
      have hstep : copyLoop env cwd (d :: rest) fs =
          copyLoop env cwd rest (fs.write (cwd ++ "/" ++ pathBase d) c) := by
        rw [copyLoop]
        unfold shutilCopy
        rw [hc]
        simp only [h1 d hdmem, Bool.false_eq_true, if_false]
      -- the write to the destination does not disturb any remaining source
      have hsrc : ∀ b ∈ rest,
          ((fs.write (cwd ++ "/" ++ pathBase d) c).lookup b).isSome := by
        intro b hb
        rw [FS.lookup_write_ne fs _ c b (h3 d hdmem b (List.mem_cons_of_mem d hb))]
        exact h2 b (List.mem_cons_of_mem d hb)
      have ihr := ih (fs.write (cwd ++ "/" ++ pathBase d) c)
        (fun b hb => h1 b (List.mem_cons_of_mem d hb))
        hsrc
        (fun b hb b' hb' => h3 b (List.mem_cons_of_mem d hb) b' (List.mem_cons_of_mem d hb'))
        h4.2
      refine ⟨by rw [hstep]; exact ihr.1, ?_, ?_⟩
      · intro b hb
        rcases List.mem_cons.mp hb with hbd | hbr
        · subst hbd
          rw [hstep]
          rw [copyLoop_lookup_frame env cwd _ rest _
            (fun x hx => h4.1 _ (List.mem_map_of_mem _ hx))]
          rw [FS.lookup_write_self, hc]
        · rw [hstep]
          rw [(ihr.2.1) b hbr]
          exact FS.lookup_write_ne fs _ c b (h3 d hdmem b (List.mem_cons_of_mem d hbr))
      · intro b hb
        rcases List.mem_cons.mp hb with hbd | hbr
        · subst hbd
          rw [hstep]
          rw [copyLoop_lookup_frame env cwd _ rest _
            (fun x hx => Ne.symm (h3 x (List.mem_cons_of_mem b hx) b hb))]
          exact FS.lookup_write_ne fs _ c b (h3 b hb b hb)
        · rw [hstep]
          rw [(ihr.2.2) b hbr]
          exact FS.lookup_write_ne fs _ c b (h3 d hdmem b (List.mem_cons_of_mem d hbr))

theorem copyLoop_fail_head (env : Env) (cwd bad : String) (rest : List String)
    (fs : FS) (hbad : env.copyFails (cwd ++ "/" ++ pathBase bad) = true) :
    copyLoop env cwd (bad :: rest) fs = (.error .copyErr, fs) := by
  rw [copyLoop]
  unfold shutilCopy
  cases hl : fs.lookup bad with
  | none => rfl
  | some c => simp only [hbad, if_true]

theorem copyLoop_fail (env : Env) (cwd : String) :
    ∀ (pre : List String) (bad : String) (rest : List String) (fs : FS),
      (∀ d ∈ pre, env.copyFails (cwd ++ "/" ++ pathBase d) = false) →
      (∀ d ∈ pre, (fs.lookup d).isSome) →
      (∀ d ∈ pre, ∀ d' ∈ pre, cwd ++ "/" ++ pathBase d ≠ d') →
      (pre.map fun d => cwd ++ "/" ++ pathBase d).Pairwise (· ≠ ·) →
      env.copyFails (cwd ++ "/" ++ pathBase bad) = true →
      (copyLoop env cwd (pre ++ bad :: rest) fs).1 = .error .copyErr ∧
      (∀ d ∈ pre, (copyLoop env cwd (pre ++ bad :: rest) fs).2.lookup
        (cwd ++ "/" ++ pathBase d) = fs.lookup d) ∧
      (∀ p, (∀ x ∈ pre, p ≠ cwd ++ "/" ++ pathBase x) →
        (copyLoop env cwd (pre ++ bad :: rest) fs).2.lookup p = fs.lookup p) := by
  intro pre
  induction pre with
  | nil =>
      intro bad rest fs _ _ _ _ hbad
      rw [List.nil_append, copyLoop_fail_head env cwd bad rest fs hbad]
      exact ⟨rfl, fun d hd => (List.not_mem_nil d hd).elim, fun p _ => rfl⟩
  | cons d pre' ih =>
      intro bad rest fs h1 h2 h3 h4 hbad
      have hdmem : d ∈ d :: pre' := List.mem_cons_self d pre'
      obtain ⟨c, hc⟩ := Option.isSome_iff_exists.mp (h2 d hdmem)
      rw [List.map_cons, List.pairwise_cons] at h4
      have hstep : copyLoop env cwd ((d :: pre') ++ bad :: rest) fs =
          copyLoop env cwd (pre' ++ bad :: rest)
            (fs.write (cwd ++ "/" ++ pathBase d) c) := by
        rw [List.cons_append, copyLoop]
        unfold shutilCopy
        rw [hc]
        simp only [h1 d hdmem, Bool.false_eq_true, if_false]
      have ihr := ih bad rest (fs.write (cwd ++ "/" ++ pathBase d) c)
        (fun b hb => h1 b (List.mem_cons_of_mem d hb))
        (fun b hb => by
          rw [FS.lookup_write_ne fs _ c b (h3 d hdmem b (List.mem_cons_of_mem d hb))]
          exact h2 b (List.mem_cons_of_mem d hb))
        (fun b hb b' hb' =>
          h3 b (List.mem_cons_of_mem d hb) b' (List.mem_cons_of_mem d hb'))
        h4.2 hbad
      refine ⟨by rw [hstep]; exact ihr.1, ?_, ?_⟩
      · intro b hb
        rcases List.mem_cons.mp hb with hbd | hbr
        · subst hbd
          rw [hstep]
          rw [ihr.2.2 _ (fun x hx => h4.1 _ (List.mem_map_of_mem _ hx))]
          rw [FS.lookup_write_self, hc]
        · rw [hstep, ihr.2.1 b hbr]
          exact FS.lookup_write_ne fs _ c b (h3 d hdmem b (List.mem_cons_of_mem d hbr))
      · intro p hp
        rw [hstep, ihr.2.2 p (fun x hx => hp x (List.mem_cons_of_mem d hx))]
        exact FS.lookup_write_ne fs _ c p
          (fun hcp => hp d hdmem hcp.symm)

theorem tryBody_err_eq (env : Env) (cwd tmp : String) (fs : FS) (u : Unit)
    (ha : env.engineArtifacts = .error u) :
    tryBody env cwd tmp fs = ⟨.error .engineErr, fs.mkdir tmp⟩ := by
  unfold tryBody writeDistributables
  rw [ha]

theorem tryBody_ok_eq (env : Env) (cwd tmp : String) (fs : FS)
    (arts : List (String × String)) (ha : env.engineArtifacts = .ok arts) :
    tryBody env cwd tmp fs =
      ⟨(copyLoop env cwd (arts.map fun a => tmp ++ "/" ++ a.1)
          (writeAll tmp arts (fs.mkdir tmp))).1,
       (copyLoop env cwd (arts.map fun a => tmp ++ "/" ++ a.1)
          (writeAll tmp arts (fs.mkdir tmp))).2⟩ := by
  unfold tryBody writeDistributables
  rw [ha]

theorem tryBody_dirs_mem (env : Env) (cwd tmp : String) (fs : FS)
    (h : tmp ∈ fs.dirs) : tmp ∈ (tryBody env cwd tmp fs).fs.dirs := by
  cases ha : env.engineArtifacts with
  | error u =>
      rw [tryBody_err_eq env cwd tmp fs u ha]
      exact FS.mem_dirs_mkdir_of_mem fs tmp tmp h
  | ok arts =>
      rw [tryBody_ok_eq env cwd tmp fs arts ha]
      show tmp ∈ (copyLoop _ _ _ _).2.dirs
      rw [copyLoop_dirs, writeAll_dirs]
      exact FS.mem_dirs_mkdir_of_mem fs tmp tmp h

theorem ephemeralBuild_clean (env : Env) (cwd : String) (fs : FS)
    (h4 : env.fixPermsFails = false) (h5 : env.rmtreeFails = false) :
    ephemeralBuild env cwd fs =
      ⟨(tryBody env cwd env.tmpPath (fs.mkdir env.tmpPath)).res,
       (tryBody env cwd env.tmpPath (fs.mkdir env.tmpPath)).fs.rmtree env.tmpPath,
       [(.info, .infoCleaning env.tmpPath)],
       [.checkDeps, .writeDist env.tmpPath]⟩ := by
  unfold ephemeralBuild
  rw [h4, h5]
  rfl

theorem ephemeralBuild_permFail (env : Env) (cwd : String) (fs : FS)
    (h4 : env.fixPermsFails = true) :
    ephemeralBuild env cwd fs =
      ⟨.error .permErr,
       (tryBody env cwd env.tmpPath (fs.mkdir env.tmpPath)).fs,
       [(.info, .infoCleaning env.tmpPath)],
       [.checkDeps, .writeDist env.tmpPath]⟩ := by
  unfold ephemeralBuild
  rw [h4]
  rfl

theorem ephemeralBuild_rmtreeFail (env : Env) (cwd : String) (fs : FS)
    (h4 : env.fixPermsFails = false) (h5 : env.rmtreeFails = true) :
    ephemeralBuild env cwd fs =
      ⟨.error .rmtreeErr,
       (tryBody env cwd env.tmpPath (fs.mkdir env.tmpPath)).fs,
       [(.info, .infoCleaning env.tmpPath)],
       [.checkDeps, .writeDist env.tmpPath]⟩ := by
  unfold ephemeralBuild
  rw [h4, h5]
  rfl

theorem process_ephemeral_eq (env : Env) (cwd : String) (opts : Options)
    (fs : FS) (h1 : opts.output_dir = none)
    (h2 : (opts.build_zip || opts.build_exe) = true)
    (h3 : env.checkFails = false) :
    process_spec_file env cwd opts fs = ephemeralBuild env cwd fs := by
  unfold process_spec_file
  rw [h3, h1, h2]
  rfl

theorem process_noBuild_eq (env : Env) (cwd : String) (opts : Options)
    (fs : FS) (h1 : opts.output_dir = none) (h2 : opts.build_zip = false)
    (h2x : opts.build_exe = false) (h3 : env.checkFails = false) :
    process_spec_file env cwd opts fs =
      ⟨.ok (), fs, [(.warning, .warnNoOutput1), (.warning, .warnNoOutput2)],
       [.checkDeps]⟩ := by
  unfold process_spec_file
  rw [h3, h1, h2, h2x]
  rfl

theorem process_outputDir_ok_eq (env : Env) (cwd : String) (opts : Options)
    (fs : FS) (d : String) (arts : List (String × String))
    (h1 : opts.output_dir = some d) (h3 : env.checkFails = false)
    (ha : env.engineArtifacts = .ok arts) :
    process_spec_file env cwd opts fs =
      ⟨.ok (), writeAll d arts (fs.mkdir d), [], [.checkDeps, .writeDist d]⟩ := by
  unfold process_spec_file writeDistributables
  rw [h3, h1, ha]
  rfl

theorem process_no_error_log (env : Env) (cwd : String) (opts : Options)
    (fs : FS) : ∀ e ∈ (process_spec_file env cwd opts fs).log,
      e.1 ≠ LogLevel.error := by
  unfold process_spec_file ephemeralBuild
  by_cases h3 : env.checkFails = true
  · simp [h3]
  · simp only [Bool.not_eq_true] at h3
    simp only [h3, Bool.false_eq_true, if_false]
    cases hd : opts.output_dir with
    | none =>
        by_cases h2 : (opts.build_zip || opts.build_exe) = true
        · simp only [h2, Bool.not_true, Bool.false_eq_true, if_false]
          by_cases h4 : env.fixPermsFails = true
          · simp [h4]
          · simp only [Bool.not_eq_true] at h4
            by_cases h5 : env.rmtreeFails = true
            · simp [h4, h5]
            · simp only [Bool.not_eq_true] at h5
              simp [h4, h5]
        · simp only [Bool.not_eq_true] at h2
          simp [h2]
    | some d =>
        cases ha : env.engineArtifacts <;> simp [writeDistributables, ha]

theorem mainLoop_stepOk_cons (proc : String → Except Err Unit)
    (f : String × FileState) (rest : List (String × FileState))
    (h : stepOk proc f = true) :
    mainLoop proc (f :: rest) =
      ⟨(mainLoop proc rest).log, f.1 :: (mainLoop proc rest).processed,
       (mainLoop proc rest).exit⟩ := by
  obtain ⟨name, st⟩ := f
  unfold stepOk at h
  cases hr : configRead st with
  | error u => rw [hr] at h; simp at h
  | ok c =>
      rw [hr] at h
      cases hp : proc c with
      | error er => simp only [hp] at h; exact absurd h (by simp)
      | ok u =>
          show (match configRead st with
            | .error _ => (⟨[(.error, .errFailedLoad name)], [], 2⟩ : MainOut)
            | .ok content =>
                match proc content with
                | .error _ => ⟨[(.error, .errUnexpected name)], [name], 2⟩
                | .ok _ =>
                    let m := mainLoop proc rest
                    ⟨m.log, name :: m.processed, m.exit⟩) = _
          simp only [hr, hp]

theorem mainLoop_allOk (proc : String → Except Err Unit) :
    ∀ files : List (String × FileState),
      (∀ f ∈ files, stepOk proc f = true) →
      mainLoop proc files = ⟨[], files.map Prod.fst, 0⟩ := by
  intro files
  induction files with
  | nil => intro _; rfl
  | cons f rest ih =>
      intro h
      rw [mainLoop_stepOk_cons proc f rest (h f (List.mem_cons_self f rest))]
      rw [ih (fun g hg => h g (List.mem_cons_of_mem f hg))]
      rfl

theorem mainLoop_malformed (proc : String → Except Err Unit) :
    ∀ (pre : List (String × FileState)) (name : String)
      (rest : List (String × FileState)),
      (∀ f ∈ pre, stepOk proc f = true) →
      mainLoop proc (pre ++ (name, .malformed) :: rest) =
        ⟨[(.error, .errFailedLoad name)], pre.map Prod.fst, 2⟩ := by
  intro pre
  induction pre with
  | nil => intro name rest _; rfl
  | cons f pre' ih =>
      intro name rest h
      rw [List.cons_append,
        mainLoop_stepOk_cons proc f _ (h f (List.mem_cons_self f pre'))]
      rw [ih name rest (fun g hg => h g (List.mem_cons_of_mem f hg))]
      rfl

theorem mainLoop_procError (proc : String → Except Err Unit) :
    ∀ (pre : List (String × FileState)) (name : String) (st : FileState)
      (c : String) (er : Err) (rest : List (String × FileState)),
      (∀ f ∈ pre, stepOk proc f = true) →
      configRead st = .ok c → proc c = .error er →
      mainLoop proc (pre ++ (name, st) :: rest) =
        ⟨[(.error, .errUnexpected name)], pre.map Prod.fst ++ [name], 2⟩ := by
  intro pre
  induction pre with
  | nil =>
      intro name st c er rest _ hr hp
      rw [List.nil_append]
      show (match configRead st with
        | .error _ => (⟨[(.error, .errFailedLoad name)], [], 2⟩ : MainOut)
        | .ok content =>
            match proc content with
            | .error _ => ⟨[(.error, .errUnexpected name)], [name], 2⟩
            | .ok _ =>
                let m := mainLoop proc rest
                ⟨m.log, name :: m.processed, m.exit⟩) = _
      simp only [hr, hp]
      rfl
  | cons f pre' ih =>
      intro name st c er rest h hr hp
      rw [List.cons_append,
        mainLoop_stepOk_cons proc f _ (h f (List.mem_cons_self f pre'))]
      rw [ih name st c er rest (fun g hg => h g (List.mem_cons_of_mem f hg)) hr hp]
      rfl

/- ============================================================ -/
/- Claims                                                       -/
/- ============================================================ -/

/-- Claim C1: in every run that creates an ephemeral working directory
(no output directory, at least one of zip/exe enabled, dependency check
passed) whose cleanup calls do not themselves raise, the ephemeral
directory no longer exists when `process_spec_file` returns — the engine
behaviour and the copy behaviour are universally quantified, so this
covers the normal return, an engine (`write_distributables`) failure and
a failure inside the artifact copy loop alike. -/
theorem C1_ephemeral_always_removed (env : Env) (cwd : String)
    (opts : Options) (fs : FS) (h1 : opts.output_dir = none)
    (h2 : (opts.build_zip || opts.build_exe) = true)
    (h3 : env.checkFails = false) (h4 : env.fixPermsFails = false)
    (h5 : env.rmtreeFails = false) :
    (process_spec_file env cwd opts fs).calls =
      [.checkDeps, .writeDist env.tmpPath] ∧
    env.tmpPath ∉ (process_spec_file env cwd opts fs).fs.dirs ∧
    ∀ p, underDir env.tmpPath p = true →
      (process_spec_file env cwd opts fs).fs.lookup p = none := by
  rw [process_ephemeral_eq env cwd opts fs h1 h2 h3,
    ephemeralBuild_clean env cwd fs h4 h5]
  exact ⟨rfl, FS.rmtree_not_mem_dirs _ _,
    fun p hp => FS.lookup_rmtree_under _ _ p hp⟩

/-- Witness for C1 at a concrete benign run. -/
theorem C1_witness :
    (process_spec_file envOk "/work" optsDefault fsStart).calls =
      [.checkDeps, .writeDist envOk.tmpPath] ∧
    envOk.tmpPath ∉ (process_spec_file envOk "/work" optsDefault fsStart).fs.dirs ∧
    ∀ p, underDir envOk.tmpPath p = true →
      (process_spec_file envOk "/work" optsDefault fsStart).fs.lookup p = none :=
  C1_ephemeral_always_removed envOk "/work" optsDefault fsStart rfl rfl rfl rfl rfl

/-- Claim C2 counterexample: one artifact copy fails (so the try body
raises the copy error), and `fix_tree_perms` fails during cleanup.
`process_spec_file` then propagates the cleanup error, not the copy
error — the in-flight exception is replaced — and the ephemeral directory
together with the artifact under it is still on disk: deletion was not
attempted, contradicting the claim. -/
theorem C2_counterexample :
    (tryBody envPerm "/work" "/tmp/styrene0" (fsStart.mkdir "/tmp/styrene0")).res =
      .error .copyErr ∧
    (process_spec_file envPerm "/work" optsDefault fsStart).res = .error .permErr ∧
    (process_spec_file envPerm "/work" optsDefault fsStart).res ≠ .error .copyErr ∧
    "/tmp/styrene0" ∈ (process_spec_file envPerm "/work" optsDefault fsStart).fs.dirs ∧
    (process_spec_file envPerm "/work" optsDefault fsStart).fs.lookup
      "/tmp/styrene0/b.zip" = some "Z" := by
  exact ⟨by decide, by decide, by decide, by decide, by decide⟩

/-- Claim C2 amended: an error raised in either cleanup call of
`process_spec_file` propagates out of the function, replacing whatever
the try body raised (or its normal result) as the propagating exception,
and the Run Driver then logs the propagated error once and exits with
status 2 — the same exit status a build error would have produced.  In
the `fix_tree_perms` failure case, `rmtree` is not even attempted, so the
ephemeral directory is still present; in the `rmtree` failure case
deletion was attempted but failed, and the deletion error likewise
replaces the try-body exception.  The try-body behaviour (engine result,
copy failures) is universally quantified in both parts. -/
theorem C2_amended_cleanup_error_propagates (env : Env) (cwd : String)
    (opts : Options) (fs : FS) (name : String) (h1 : opts.output_dir = none)
    (h2 : (opts.build_zip || opts.build_exe) = true)
    (h3 : env.checkFails = false) :
    (env.fixPermsFails = true →
      (process_spec_file env cwd opts fs).res = .error .permErr ∧
      (process_spec_file env cwd opts fs).fs =
        (tryBody env cwd env.tmpPath (fs.mkdir env.tmpPath)).fs ∧
      env.tmpPath ∈ (process_spec_file env cwd opts fs).fs.dirs ∧
      mainLoop (fun _ => (process_spec_file env cwd opts fs).res)
          [(name, .good "spec")] =
        ⟨[(.error, .errUnexpected name)], [name], 2⟩) ∧
    (env.fixPermsFails = false → env.rmtreeFails = true →
      (process_spec_file env cwd opts fs).res = .error .rmtreeErr ∧
      mainLoop (fun _ => (process_spec_file env cwd opts fs).res)
          [(name, .good "spec")] =
        ⟨[(.error, .errUnexpected name)], [name], 2⟩) := by
  constructor
  · intro h4
    rw [process_ephemeral_eq env cwd opts fs h1 h2 h3,
      ephemeralBuild_permFail env cwd fs h4]
    refine ⟨rfl, rfl, ?_, rfl⟩
    exact tryBody_dirs_mem env cwd env.tmpPath _ (FS.mem_dirs_mkdir fs env.tmpPath)
  · intro h4 h5
    rw [process_ephemeral_eq env cwd opts fs h1 h2 h3,
      ephemeralBuild_rmtreeFail env cwd fs h4 h5]
    exact ⟨rfl, rfl⟩

/-- Witness for the amended C2 at two concrete failing runs: one where
the permission fix raises, one where it succeeds and the recursive
deletion raises. -/
theorem C2_amended_witness :
    ((process_spec_file envPerm "/work" optsDefault fsStart).res = .error .permErr ∧
     (process_spec_file envPerm "/work" optsDefault fsStart).fs =
       (tryBody envPerm "/work" envPerm.tmpPath (fsStart.mkdir envPerm.tmpPath)).fs ∧
     envPerm.tmpPath ∈ (process_spec_file envPerm "/work" optsDefault fsStart).fs.dirs ∧
     mainLoop (fun _ => (process_spec_file envPerm "/work" optsDefault fsStart).res)
         [("a.cfg", .good "spec")] =
       ⟨[(.error, .errUnexpected "a.cfg")], ["a.cfg"], 2⟩) ∧
    ((process_spec_file envRmFail "/work" optsDefault fsStart).res = .error .rmtreeErr ∧
     mainLoop (fun _ => (process_spec_file envRmFail "/work" optsDefault fsStart).res)
         [("a.cfg", .good "spec")] =
       ⟨[(.error, .errUnexpected "a.cfg")], ["a.cfg"], 2⟩) :=
  ⟨(C2_amended_cleanup_error_propagates envPerm "/work" optsDefault fsStart
      "a.cfg" rfl rfl rfl).1 rfl,
   (C2_amended_cleanup_error_propagates envRmFail "/work" optsDefault fsStart
      "a.cfg" rfl rfl rfl).2 rfl rfl⟩

/-- Claim C3: with no output directory and both outputs disabled,
`process_spec_file` returns normally, emits exactly the two warnings,
leaves the filesystem untouched (no temp directory, no artifact), and the
no-build condition is detected before the engine build is invoked: the
only engine call made is the dependency check, never
`write_distributables`. -/
theorem C3_noBuild_noop (env : Env) (cwd : String) (opts : Options)
    (fs : FS) (h1 : opts.output_dir = none) (h2 : opts.build_zip = false)
    (h2x : opts.build_exe = false) (h3 : env.checkFails = false) :
    (process_spec_file env cwd opts fs).res = .ok () ∧
    (process_spec_file env cwd opts fs).fs = fs ∧
    (process_spec_file env cwd opts fs).log =
      [(.warning, .warnNoOutput1), (.warning, .warnNoOutput2)] ∧
    (process_spec_file env cwd opts fs).calls = [.checkDeps] ∧
    ∀ d, EngineCall.writeDist d ∉ (process_spec_file env cwd opts fs).calls := by
  rw [process_noBuild_eq env cwd opts fs h1 h2 h2x h3]
  refine ⟨rfl, rfl, rfl, rfl, ?_⟩
  intro d hmem
  simp at hmem

/-- Witness for C3 at a concrete no-build run. -/
theorem C3_witness :
    (process_spec_file envOk "/work" optsNoBuild fsStart).res = .ok () ∧
    (process_spec_file envOk "/work" optsNoBuild fsStart).fs = fsStart ∧
    (process_spec_file envOk "/work" optsNoBuild fsStart).log =
      [(.warning, .warnNoOutput1), (.warning, .warnNoOutput2)] ∧
    (process_spec_file envOk "/work" optsNoBuild fsStart).calls = [.checkDeps] ∧
    ∀ d, EngineCall.writeDist d ∉
      (process_spec_file envOk "/work" optsNoBuild fsStart).calls :=
  C3_noBuild_noop envOk "/work" optsNoBuild fsStart rfl rfl rfl rfl

/-- Claim C7: with an explicit output directory, the build goes directly
into that directory (created if absent), no ephemeral directory is used,
and the engine `write_distributables` call on that directory is the sole
completion step: no copy, no deletion, no further log output. -/
theorem C7_outputDir_direct (env : Env) (cwd : String) (opts : Options)
    (fs : FS) (d : String) (arts : List (String × String))
    (h1 : opts.output_dir = some d) (h3 : env.checkFails = false)
    (ha : env.engineArtifacts = .ok arts) :
    (process_spec_file env cwd opts fs).res = .ok () ∧
    (process_spec_file env cwd opts fs).calls = [.checkDeps, .writeDist d] ∧
    (process_spec_file env cwd opts fs).fs = writeAll d arts (fs.mkdir d) ∧
    d ∈ (process_spec_file env cwd opts fs).fs.dirs ∧
    (process_spec_file env cwd opts fs).fs.dirs = (fs.mkdir d).dirs ∧
    (process_spec_file env cwd opts fs).log = [] := by
  rw [process_outputDir_ok_eq env cwd opts fs d arts h1 h3 ha]
  refine ⟨rfl, rfl, rfl, ?_, ?_, rfl⟩
  · show d ∈ (writeAll d arts (fs.mkdir d)).dirs
    rw [writeAll_dirs]
    exact FS.mem_dirs_mkdir fs d
  · exact writeAll_dirs d arts (fs.mkdir d)

/-- Witness for C7 at a concrete run with an output directory. -/
theorem C7_witness :
    (process_spec_file envOk "/work" optsOut fsStart).res = .ok () ∧
    (process_spec_file envOk "/work" optsOut fsStart).calls =
      [.checkDeps, .writeDist "/out"] ∧
    (process_spec_file envOk "/work" optsOut fsStart).fs =
      writeAll "/out" [("b.zip", "Z"), ("b.exe", "X")] (fsStart.mkdir "/out") ∧
    "/out" ∈ (process_spec_file envOk "/work" optsOut fsStart).fs.dirs ∧
    (process_spec_file envOk "/work" optsOut fsStart).fs.dirs =
      (fsStart.mkdir "/out").dirs ∧
    (process_spec_file envOk "/work" optsOut fsStart).log = [] :=
  C7_outputDir_direct envOk "/work" optsOut fsStart "/out"
    [("b.zip", "Z"), ("b.exe", "X")] rfl rfl rfl

/-- Claim C8: with colour enabled, the formatter wraps each match of the
four placeholder kinds in a bold start/stop pair, applying the four
patterns sequentially in the fixed source order — generic value, string,
integer, float — each later pattern running on the string already altered
by the earlier substitutions, so the output is a deterministic function
of the message; on the spec instance the bold codes sit immediately
around the rendered number, bounded by the severity colour prefix and a
trailing reset. -/
theorem C8_token_wrapping :
    (∀ msg : String, colorizeMsg msg =
      boldSub .pf (boldSub .pd (boldSub .ps (boldSub .pr msg)))) ∧
    colorizeMsg "found %d packages" =
      "found " ++ BOLD ++ "%d" ++ BOLDOFF ++ " packages" ∧
    colorizeMsg "%+3.1f of %s" =
      BOLD ++ "%+3.1f" ++ BOLDOFF ++ " of " ++ BOLD ++ "%s" ++ BOLDOFF ∧
    formatRecordColour "INFO" "styrene" "found %d packages" 5 =
      levelColour "INFO" ++ "INFO" ++ ": " ++ BOLD ++ "styrene" ++ BOLDOFF
        ++ ": " ++ "found " ++ BOLD ++ "5" ++ BOLDOFF ++ " packages" ++ RESET := by
  exact ⟨fun msg => rfl, by decide, by decide, by decide⟩

/-- Claim C9: the colour option is casefolded before the lookup, so yes
and no are recognized in any letter case, and every other value — auto in
any case, or an unrecognized value such as always — falls back to the
interactive-terminal test. -/
theorem C9_colour_fallback (c : String) (tty : Bool)
    (h1 : foldAscii c ≠ "yes") (h2 : foldAscii c ≠ "no") :
    colourEnabled c tty = tty ∧
    colourEnabled "auto" tty = tty ∧
    colourEnabled "AUTO" tty = tty ∧
    colourEnabled "Auto" tty = tty ∧
    colourEnabled "always" tty = tty ∧
    colourEnabled "Yes" tty = true ∧
    colourEnabled "YES" tty = true ∧
    colourEnabled "No" tty = false ∧
    colourEnabled "nO" tty = false := by
  refine ⟨?_, rfl, rfl, rfl, rfl, rfl, rfl, rfl, rfl⟩
  unfold colourEnabled
  rw [if_neg h1, if_neg h2]

/-- Witness for C9 at a concrete unrecognized colour value. -/
theorem C9_witness :
    colourEnabled "always" true = true ∧
    colourEnabled "auto" true = true ∧
    colourEnabled "AUTO" true = true ∧
    colourEnabled "Auto" true = true ∧
    colourEnabled "always" true = true ∧
    colourEnabled "Yes" true = true ∧
    colourEnabled "YES" true = true ∧
    colourEnabled "No" true = false ∧
    colourEnabled "nO" true = false :=
  C9_colour_fallback "always" true (by decide) (by decide)

/-- Claim C10: when quiet and debug are both set, quiet wins — the
minimum severity becomes WARNING, not DEBUG, because quiet is tested
first. -/
theorem C10_quiet_over_debug :
    (∀ dbg : Bool, chooseLogLevel true dbg = logWARNING) ∧
    chooseLogLevel true true ≠ logDEBUG := by
  exact ⟨fun dbg => rfl, by decide⟩

/-- Claim C4 counterexample: an unreadable first input does not make
parsing fail — the parser silently ignores the unopenable file — so no
error entry is logged, the file (as an empty specification) is handed to
the orchestrator, the next input is still processed, and the run exits
with status 0, not 2. -/
theorem C4_counterexample :
    (mainLoop (fun _ => (.ok () : Except Err Unit))
        [("a.cfg", .unreadable), ("b.cfg", .good "x")]).exit = 0 ∧
    (mainLoop (fun _ => (.ok () : Except Err Unit))
        [("a.cfg", .unreadable), ("b.cfg", .good "x")]).log = [] ∧
    (mainLoop (fun _ => (.ok () : Except Err Unit))
        [("a.cfg", .unreadable), ("b.cfg", .good "x")]).processed =
      ["a.cfg", "b.cfg"] :=
  ⟨rfl, rfl, rfl⟩

/-- Claim C4 amended: when parsing an input raises (malformed content),
exactly one error entry is logged and the process exits with status 2
without processing that input or any later one; when
`process_spec_file` raises, exactly one error entry is logged and the
process exits with status 2 with no later input processed; when every
input parses (or is silently skipped as unreadable) and processes
cleanly, the process exits with status 0 and no driver log entry; an
unreadable file is not a parse failure — the parser yields an empty
specification that is still processed; and the error entries counted here
are the only ones, as the orchestrator itself never logs at error
severity. -/
theorem C4_amended_failfast :
    (∀ (proc : String → Except Err Unit) (pre : List (String × FileState))
       (name : String) (rest : List (String × FileState)),
      (∀ f ∈ pre, stepOk proc f = true) →
      mainLoop proc (pre ++ (name, FileState.malformed) :: rest) =
        ⟨[(.error, .errFailedLoad name)], pre.map Prod.fst, 2⟩) ∧
    (∀ (proc : String → Except Err Unit) (pre : List (String × FileState))
       (name : String) (st : FileState) (c : String) (er : Err)
       (rest : List (String × FileState)),
      (∀ f ∈ pre, stepOk proc f = true) →
      configRead st = .ok c → proc c = .error er →
      mainLoop proc (pre ++ (name, st) :: rest) =
        ⟨[(.error, .errUnexpected name)], pre.map Prod.fst ++ [name], 2⟩) ∧
    (∀ (proc : String → Except Err Unit) (files : List (String × FileState)),
      (∀ f ∈ files, stepOk proc f = true) →
      mainLoop proc files = ⟨[], files.map Prod.fst, 0⟩) ∧
    configRead FileState.unreadable = .ok "" ∧
    (∀ (env : Env) (cwd : String) (opts : Options) (fs : FS),
      ∀ e ∈ (process_spec_file env cwd opts fs).log, e.1 ≠ LogLevel.error) :=
  ⟨fun proc pre name rest h => mainLoop_malformed proc pre name rest h,
   fun proc pre name st c er rest h hr hp =>
     mainLoop_procError proc pre name st c er rest h hr hp,
   fun proc files h => mainLoop_allOk proc files h,
   rfl,
   fun env cwd opts fs => process_no_error_log env cwd opts fs⟩

/-- Witness for the amended C4: malformed input stops a three-input run
after the first input with one error entry and exit 2; an orchestrator
error on the second input stops the run there with one error entry and
exit 2; a run with an unreadable input and a good input processes both
and exits 0. -/
theorem C4_amended_witness :
    mainLoop (fun _ => (.ok () : Except Err Unit))
        ([("a.cfg", FileState.good "x")] ++
          ("bad.cfg", FileState.malformed) :: [("c.cfg", FileState.good "y")]) =
      ⟨[(.error, .errFailedLoad "bad.cfg")], ["a.cfg"], 2⟩ ∧
    mainLoop (fun s => if s = "boom" then (.error .engineErr : Except Err Unit) else .ok ())
        ([("a.cfg", FileState.good "x")] ++
          ("bad.cfg", FileState.good "boom") :: [("c.cfg", FileState.good "y")]) =
      ⟨[(.error, .errUnexpected "bad.cfg")], ["a.cfg", "bad.cfg"], 2⟩ ∧
    mainLoop (fun _ => (.ok () : Except Err Unit))
        [("a.cfg", FileState.unreadable), ("b.cfg", FileState.good "x")] =
      ⟨[], ["a.cfg", "b.cfg"], 0⟩ :=
  ⟨C4_amended_failfast.1 _ _ _ _ (by decide),
   C4_amended_failfast.2.1 _ [("a.cfg", FileState.good "x")] "bad.cfg"
     (FileState.good "boom") "boom" .engineErr [("c.cfg", FileState.good "y")]
     (by decide) rfl (by decide),
   C4_amended_failfast.2.2.1 _ _ (by decide)⟩

/-- Claim C5: in ephemeral-build mode, a successful run copies each of
the N artifacts returned by `write_distributables` into the current
working directory under the base name of the artifact path, with byte
content equal to the original; every path that is neither such a
destination nor inside the ephemeral directory is untouched, so exactly N
files are placed; and the transfer is a copy, not a move — before the
cleanup both the ephemeral original and its copy exist with the same
content. -/
theorem C5_copy_out (env : Env) (cwd : String) (opts : Options) (fs : FS)
    (arts : List (String × String)) (h1 : opts.output_dir = none)
    (h2 : (opts.build_zip || opts.build_exe) = true)
    (h3 : env.checkFails = false) (h4 : env.fixPermsFails = false)
    (h5 : env.rmtreeFails = false) (ha : env.engineArtifacts = .ok arts)
    (hsrc : (arts.map fun a => env.tmpPath ++ "/" ++ a.1).Pairwise (· ≠ ·))
    (hdst : (arts.map (artifactDest env cwd)).Pairwise (· ≠ ·))
    (hnofail : ∀ a ∈ arts, env.copyFails (artifactDest env cwd a) = false)
    (hout : ∀ a ∈ arts, underDir env.tmpPath (artifactDest env cwd a) = false) :
    (process_spec_file env cwd opts fs).res = .ok () ∧
    (∀ a ∈ arts,
      (tryBody env cwd env.tmpPath (fs.mkdir env.tmpPath)).fs.lookup
          (env.tmpPath ++ "/" ++ a.1) = some a.2 ∧
      (tryBody env cwd env.tmpPath (fs.mkdir env.tmpPath)).fs.lookup
          (artifactDest env cwd a) = some a.2) ∧
    (∀ a ∈ arts, (process_spec_file env cwd opts fs).fs.lookup
        (artifactDest env cwd a) = some a.2) ∧
    (∀ p, underDir env.tmpPath p = false →
      (∀ a ∈ arts, p ≠ artifactDest env cwd a) →
      (process_spec_file env cwd opts fs).fs.lookup p = fs.lookup p) := by
  rw [process_ephemeral_eq env cwd opts fs h1 h2 h3,
    ephemeralBuild_clean env cwd fs h4 h5,
    tryBody_ok_eq env cwd env.tmpPath (fs.mkdir env.tmpPath) arts ha,
    FS.mkdir_idem fs env.tmpPath]
  have hWmem : ∀ a ∈ arts,
      (writeAll env.tmpPath arts (fs.mkdir env.tmpPath)).lookup
        (env.tmpPath ++ "/" ++ a.1) = some a.2 :=
    writeAll_lookup_mem env.tmpPath arts (fs.mkdir env.tmpPath) hsrc
  have hne_src : ∀ a ∈ arts, ∀ b ∈ arts,
      cwd ++ "/" ++ pathBase (env.tmpPath ++ "/" ++ a.1) ≠
        env.tmpPath ++ "/" ++ b.1 := by
    intro a hamem b hbmem heq
    have h1f : underDir env.tmpPath
        (cwd ++ "/" ++ pathBase (env.tmpPath ++ "/" ++ a.1)) = false :=
      hout a hamem
    rw [heq] at h1f
    have und := underDir_append env.tmpPath b.1
    rw [h1f] at und
    exact Bool.false_ne_true und
  have hcl := copyLoop_ok env cwd
    (arts.map fun a => env.tmpPath ++ "/" ++ a.1)
    (writeAll env.tmpPath arts (fs.mkdir env.tmpPath))
    (by
      intro d hd
      obtain ⟨a, hamem, rfl⟩ := List.mem_map.mp hd
      exact hnofail a hamem)
    (by
      intro d hd
      obtain ⟨a, hamem, rfl⟩ := List.mem_map.mp hd
      rw [hWmem a hamem]
      rfl)
    (by
      intro d hd d' hd'
      obtain ⟨a, hamem, rfl⟩ := List.mem_map.mp hd
      obtain ⟨b, hbmem, rfl⟩ := List.mem_map.mp hd'
      exact hne_src a hamem b hbmem)
    (by
      rw [List.map_map]
      exact hdst)
  refine ⟨hcl.1, ?_, ?_, ?_⟩
  · intro a hamem
    constructor
    · rw [hcl.2.2 _ (List.mem_map_of_mem _ hamem)]
      exact hWmem a hamem
    · have := hcl.2.1 _ (List.mem_map_of_mem
        (fun a => env.tmpPath ++ "/" ++ a.1) hamem)
      rw [hWmem a hamem] at this
      exact this
  · intro a hamem
    rw [FS.lookup_rmtree_frame _ _ _ (hout a hamem)]
    have := hcl.2.1 _ (List.mem_map_of_mem
      (fun a => env.tmpPath ++ "/" ++ a.1) hamem)
    rw [hWmem a hamem] at this
    exact this
  · intro p hp hnp
    rw [FS.lookup_rmtree_frame _ _ _ hp]
    rw [copyLoop_lookup_frame env cwd p _ _
      (by
        intro d hd
        obtain ⟨a, hamem, rfl⟩ := List.mem_map.mp hd
        exact hnp a hamem)]
    rw [writeAll_lookup_frame env.tmpPath p arts _
      (by
        intro a hamem heq
        rw [heq] at hp
        have und := underDir_append env.tmpPath a.1
        rw [hp] at und
        exact Bool.false_ne_true und)]
    exact FS.lookup_mkdir fs env.tmpPath p

/-- Witness for C5 at a concrete two-artifact run. -/
theorem C5_witness :
    (process_spec_file envOk "/work" optsDefault fsStart).res = .ok () ∧
    (∀ a ∈ [(("b.zip" : String), ("Z" : String)), (("b.exe" : String), ("X" : String))],
      (tryBody envOk "/work" envOk.tmpPath (fsStart.mkdir envOk.tmpPath)).fs.lookup
          (envOk.tmpPath ++ "/" ++ a.1) = some a.2 ∧
      (tryBody envOk "/work" envOk.tmpPath (fsStart.mkdir envOk.tmpPath)).fs.lookup
          (artifactDest envOk "/work" a) = some a.2) ∧
    (∀ a ∈ [(("b.zip" : String), ("Z" : String)), (("b.exe" : String), ("X" : String))],
      (process_spec_file envOk "/work" optsDefault fsStart).fs.lookup
        (artifactDest envOk "/work" a) = some a.2) ∧
    (∀ p, underDir envOk.tmpPath p = false →
      (∀ a ∈ [(("b.zip" : String), ("Z" : String)), (("b.exe" : String), ("X" : String))],
        p ≠ artifactDest envOk "/work" a) →
      (process_spec_file envOk "/work" optsDefault fsStart).fs.lookup p =
        fsStart.lookup p) :=
  C5_copy_out envOk "/work" optsDefault fsStart
    [("b.zip", "Z"), ("b.exe", "X")] rfl rfl rfl rfl rfl rfl
    (by decide) (by decide) (by decide) (by decide)

/-- Claim C6: if the artifact copy loop fails partway through, every
artifact copied before the failure remains in the final output location
(no rollback) and the ephemeral directory is still cleaned up; and when
the engine returns zero artifacts, the copy loop is a no-op, cleanup
still runs (the cleanup message is logged), and the filesystem ends as it
began. -/
theorem C6_partial_and_empty :
    (∀ (env : Env) (cwd : String) (opts : Options) (fs : FS)
       (preA : List (String × String)) (bad : String × String)
       (restA : List (String × String)),
      opts.output_dir = none → (opts.build_zip || opts.build_exe) = true →
      env.checkFails = false → env.fixPermsFails = false →
      env.rmtreeFails = false →
      env.engineArtifacts = .ok (preA ++ bad :: restA) →
      ((preA ++ bad :: restA).map fun a => env.tmpPath ++ "/" ++ a.1).Pairwise (· ≠ ·) →
      (preA.map (artifactDest env cwd)).Pairwise (· ≠ ·) →
      (∀ a ∈ preA, env.copyFails (artifactDest env cwd a) = false) →
      env.copyFails (artifactDest env cwd bad) = true →
      (∀ a ∈ preA, underDir env.tmpPath (artifactDest env cwd a) = false) →
      (process_spec_file env cwd opts fs).res = .error .copyErr ∧
      (∀ a ∈ preA, (process_spec_file env cwd opts fs).fs.lookup
          (artifactDest env cwd a) = some a.2) ∧
      env.tmpPath ∉ (process_spec_file env cwd opts fs).fs.dirs ∧
      (∀ p, underDir env.tmpPath p = true →
        (process_spec_file env cwd opts fs).fs.lookup p = none)) ∧
    (∀ (env : Env) (cwd : String) (opts : Options) (fs : FS),
      opts.output_dir = none → (opts.build_zip || opts.build_exe) = true →
      env.checkFails = false → env.fixPermsFails = false →
      env.rmtreeFails = false → env.engineArtifacts = .ok [] →
      env.tmpPath ∉ fs.dirs →
      (∀ x ∈ fs.dirs, underDir env.tmpPath x = false) →
      (∀ e ∈ fs.files, underDir env.tmpPath e.1 = false) →
      (process_spec_file env cwd opts fs).res = .ok () ∧
      (process_spec_file env cwd opts fs).fs = fs ∧
      (process_spec_file env cwd opts fs).log =
        [(.info, .infoCleaning env.tmpPath)]) := by
  constructor
  · intro env cwd opts fs preA bad restA h1 h2 h3 h4 h5 ha hsrc hdstpre
      hnofailpre hbad houtpre
    rw [process_ephemeral_eq env cwd opts fs h1 h2 h3,
      ephemeralBuild_clean env cwd fs h4 h5,
      tryBody_ok_eq env cwd env.tmpPath (fs.mkdir env.tmpPath) _ ha,
      FS.mkdir_idem fs env.tmpPath,
      List.map_append, List.map_cons]
    have hWmem : ∀ a ∈ preA ++ bad :: restA,
        (writeAll env.tmpPath (preA ++ bad :: restA) (fs.mkdir env.tmpPath)).lookup
          (env.tmpPath ++ "/" ++ a.1) = some a.2 :=
      writeAll_lookup_mem env.tmpPath (preA ++ bad :: restA)
        (fs.mkdir env.tmpPath) hsrc
    have hcf := copyLoop_fail env cwd
      (preA.map fun a => env.tmpPath ++ "/" ++ a.1)
      (env.tmpPath ++ "/" ++ bad.1)
      (restA.map fun a => env.tmpPath ++ "/" ++ a.1)
      (writeAll env.tmpPath (preA ++ bad :: restA) (fs.mkdir env.tmpPath))
      (by
        intro d hd
        obtain ⟨a, hamem, rfl⟩ := List.mem_map.mp hd
        exact hnofailpre a hamem)
      (by
        intro d hd
        obtain ⟨a, hamem, rfl⟩ := List.mem_map.mp hd
        rw [hWmem a (List.mem_append_left _ hamem)]
        rfl)
      (by
        intro d hd d' hd'
        obtain ⟨a, hamem, rfl⟩ := List.mem_map.mp hd
        obtain ⟨b, hbmem, rfl⟩ := List.mem_map.mp hd'
        intro heq
        have h1f : underDir env.tmpPath
            (cwd ++ "/" ++ pathBase (env.tmpPath ++ "/" ++ a.1)) = false :=
          houtpre a hamem
        rw [heq] at h1f
        have und := underDir_append env.tmpPath b.1
        rw [h1f] at und
        exact Bool.false_ne_true und)
      (by
        rw [List.map_map]
        exact hdstpre)
      hbad
    refine ⟨hcf.1, ?_, FS.rmtree_not_mem_dirs _ _,
      fun p hp => FS.lookup_rmtree_under _ _ p hp⟩
    intro a hamem
    rw [FS.lookup_rmtree_frame _ _ _ (houtpre a hamem)]
    have := hcf.2.1 _ (List.mem_map_of_mem
      (fun a => env.tmpPath ++ "/" ++ a.1) hamem)
    rw [hWmem a (List.mem_append_left _ hamem)] at this
    exact this
  · intro env cwd opts fs h1 h2 h3 h4 h5 ha htmp hdirs hfiles
    rw [process_ephemeral_eq env cwd opts fs h1 h2 h3,
      ephemeralBuild_clean env cwd fs h4 h5,
      tryBody_ok_eq env cwd env.tmpPath (fs.mkdir env.tmpPath) [] ha,
      FS.mkdir_idem fs env.tmpPath]
    refine ⟨rfl, ?_, rfl⟩
    show ((fs.mkdir env.tmpPath).rmtree env.tmpPath) = fs
    rcases fs with ⟨ds, fls⟩
    unfold FS.mkdir
    rw [if_neg htmp]
    unfold FS.rmtree
    congr 1
    · rw [List.filter_cons]
      have hd : (!(env.tmpPath == env.tmpPath || underDir env.tmpPath env.tmpPath)) = false := by
        simp
      rw [hd]
      simp only [Bool.false_eq_true, if_false]
      exact List.filter_eq_self.mpr (by
        intro x hx
        have hx1 : x ≠ env.tmpPath := by
          intro hc
          exact htmp (hc ▸ hx)
        simp [hx1, hdirs x hx])
    · exact List.filter_eq_self.mpr (by
        intro e he
        simp [hfiles e he])

/-- Witness for C6: a run whose second artifact copy fails keeps the
first artifact in the output directory and still removes the temp
directory; a run with zero artifacts leaves the filesystem unchanged and
logs the cleanup message. -/
theorem C6_witness :
    ((process_spec_file envFailSnd "/work" optsDefault fsStart).res =
        .error .copyErr ∧
     (∀ a ∈ [(("b.zip" : String), ("Z" : String))],
       (process_spec_file envFailSnd "/work" optsDefault fsStart).fs.lookup
         (artifactDest envFailSnd "/work" a) = some a.2) ∧
     envFailSnd.tmpPath ∉
       (process_spec_file envFailSnd "/work" optsDefault fsStart).fs.dirs ∧
     (∀ p, underDir envFailSnd.tmpPath p = true →
       (process_spec_file envFailSnd "/work" optsDefault fsStart).fs.lookup p =
         none)) ∧
    ((process_spec_file envNone "/work" optsDefault fsStart).res = .ok () ∧
     (process_spec_file envNone "/work" optsDefault fsStart).fs = fsStart ∧
     (process_spec_file envNone "/work" optsDefault fsStart).log =
       [(.info, .infoCleaning envNone.tmpPath)]) :=
  ⟨C6_partial_and_empty.1 envFailSnd "/work" optsDefault fsStart
     [("b.zip", "Z")] ("b.exe", "X") [] rfl rfl rfl rfl rfl rfl
     (by decide) (by decide) (by decide) (by decide) (by decide),
   C6_partial_and_empty.2 envNone "/work" optsDefault fsStart
     rfl rfl rfl rfl rfl rfl (by decide) (by decide) (by decide)⟩
